import Mathlib

/-!
# The crawl engine of dnsseeder (`crawler.go`)

`crawlNode` crawls one remote peer and pushes one `result` on the results
channel; `crawlIP` is the handshake / address-exchange engine it calls.

The embedding is shallow.  Everything outside `crawler.go` that the two
functions talk to (the btcd `peer` package, `net.Dial`, the remote peer, the
two timers) is gathered in a `World`: the answers of the two fallible library
calls, and a schedule of the events that reach the two `select` statements.
The code is run against a `World` by explicit state passing: the `result`
that the listeners mutate through the captured pointer `r` is threaded
through, and every library call the engine makes is appended to a trace.
`crawlNode` sends that pointer, not a copy: what the seeder finds behind it
also depends on the listeners that run after the send, on a connection the
engine left open.

Debug logging (`config.debug`) only writes to stdout and is left out.
-/

namespace Dnsseeder

/-! ## Go values -/

/-- Go `error` value, identified by the text its `Error()` method returns. -/
structure GoError where
  text : String
deriving DecidableEq, Repr

/-- Go `errors.New`. -/
def errors.New (text : String) : GoError := ⟨text⟩

/-- Go slice.  `nil` is the nil slice, which is distinct from an allocated
slice of length zero. -/
inductive GoSlice (α : Type) where
  | nil : GoSlice α
  | ofList (elems : List α) : GoSlice α
deriving DecidableEq, Repr

/-- Go `len` on a slice. -/
def GoSlice.len {α : Type} : GoSlice α → Nat
  | .nil => 0
  | .ofList elems => elems.length

/-- Elements of a slice in index order. -/
def GoSlice.toList {α : Type} : GoSlice α → List α
  | .nil => []
  | .ofList elems => elems

/-- Go `strconv.Itoa` on a non-negative int: its decimal digits. -/
def Itoa (n : Nat) : String := Nat.repr n

/-- Go `net.JoinHostPort`: a host that contains a colon is put in brackets. -/
def JoinHostPort (host port : String) : String :=
  if host.toList.contains ':' then "[" ++ host ++ "]:" ++ port else host ++ ":" ++ port

/-! ## Wire and peer types (btcd) -/

/-- btcd `wire.NetAddress`.  `IP` is the byte slice of `net.IP`, `Port` a uint16. -/
structure NetAddress where
  Timestamp : Nat
  Services : Nat
  IP : List Nat
  Port : Nat
deriving DecidableEq, Repr

/-- btcd `wire.MsgVersion`, the fields the `OnVersion` listener reads:
`ProtocolVersion` int32, `Services` uint64, `LastBlock` int32, `UserAgent`. -/
structure MsgVersion where
  ProtocolVersion : Int
  Services : Nat
  LastBlock : Int
  UserAgent : String
deriving DecidableEq, Repr

/-- btcd `wire.MsgAddr`. -/
structure MsgAddr where
  AddrList : GoSlice NetAddress
deriving DecidableEq, Repr

/-- Go `new(wire.MsgAddr)`: the zero message, whose `AddrList` is the nil slice. -/
def MsgAddr.new : MsgAddr := ⟨.nil⟩

/-- btcd `peer.Config` as `crawlIP` fills it (the listeners are the functions
`OnVersion`, `OnVerAck` and `OnAddr` below). -/
structure PeerConfig where
  UserAgentName : String
  UserAgentVersion : String
  Net : Nat
  ProtocolVersion : Nat
  Services : Nat
deriving DecidableEq, Repr

/-- btcd `peer.Peer`: `Addr` is what `p.Addr()` returns. -/
structure Peer where
  Addr : String
deriving DecidableEq, Repr

/-- Go `net.Conn`, by an identifier. -/
structure Conn where
  id : Nat
deriving DecidableEq, Repr

/-! ## Types of the repository -/

/-- The type `crawlError` (crawler.go, lines 18-21). -/
structure crawlError where
  errLoc : String
  Err : GoError
deriving DecidableEq, Repr

/-- The method `(*crawlError).Error` (crawler.go, lines 24-26). -/
def crawlError.Error (e : crawlError) : String :=
  "err: " ++ e.errLoc ++ ": " ++ e.Err.text

/-- Modelled from the spec: the declaration of `node` is not in crawler.go.
`crawlNode` reads `nd.na.IP` and `nd.na.Port` only. -/
structure node where
  na : NetAddress
deriving DecidableEq, Repr

/-- Modelled from the spec: the declaration of `result` (the CrawlResult of the
data model) is not in crawler.go.  Target identifier, protocol version (int32),
service bitmask (uint64), last block (int32), user agent, address list and an
optional error; `msg` is a `*crawlError`, `none` being the nil pointer. -/
structure result where
  nas : GoSlice NetAddress
  msg : Option crawlError
  node : String
  version : Int
  services : Nat
  lastBlock : Int
  strVersion : String
deriving DecidableEq, Repr

/-- Modelled from the spec: the declaration of `dnsseeder` is not in
crawler.go.  `crawlIP` reads the network id, the protocol version to
advertise, `len(s.theList)` and `s.maxSize` (a Go int). -/
structure dnsseeder where
  id : Nat
  pver : Nat
  name : String
  theList : List node
  maxSize : Int
deriving DecidableEq, Repr

/-! ## The world outside crawler.go -/

/-- What reaches the engine while it waits in a `select`: the peer package
invoking one of the three listeners of `peerCfg`, or the pending
`time.After` timer firing. -/
inductive Event where
  | onVersion (msg : MsgVersion)
  | onVerAck
  | onAddr (msg : MsgAddr)
  | timer
deriving DecidableEq, Repr

/-- The libraries and the network, as seen from one run of `crawlNode`. -/
structure World where
  /-- Go `net.IP.String` -/
  ipString : List Nat → String
  /-- btcd `peer.NewOutboundPeer` -/
  newOutboundPeer : PeerConfig → String → Except GoError Peer
  /-- Go `net.Dial` -/
  dial : String → String → Except GoError Conn
  /-- events after `AssociateConnection`, in the order they happen; a timer
  that is never preceded by the awaited message fires, so a schedule that
  runs out counts as the timer firing -/
  schedule : List Event

/-- Library calls of `crawlIP`, in the order the source text makes them. -/
inductive Action where
  | newOutboundPeer
  | dial
  | associateConnection
  | awaitVerack
  | queueGetAddr
  | awaitAddr
  | disconnect
  | waitForDisconnect
deriving DecidableEq, Repr

/-! ## crawlIP -/

/-- The `OnVersion` listener (crawler.go, lines 64-74): fills the result
with the remote details. -/
def OnVersion (r : result) (msg : MsgVersion) : result :=
  { r with
    version := msg.ProtocolVersion
    services := msg.Services
    lastBlock := msg.LastBlock
    strVersion := msg.UserAgent }

/-- Outcome of the first `select`. -/
structure VerackWait where
  /-- whether `<-verack` was taken (`true`) or the 5 second timer (`false`) -/
  acked : Bool
  /-- the result as the listeners left it -/
  r : result
  /-- messages of `OnAddr` invocations blocked in `onAddr <- msg` -/
  onAddr : List MsgAddr
  /-- events not yet consumed -/
  rest : List Event
deriving DecidableEq, Repr

/-- The first `select` (crawler.go, lines 100-104).  `verack` and `onAddr`
are unbuffered: an `OnVerAck` invocation hands its token to the waiting
`select`, an `OnAddr` invocation blocks, holding its message, until the
engine receives from `onAddr`; `OnVersion` writes through `r`. -/
def awaitVerack : List Event → result → List MsgAddr → VerackWait
  | [], r, q => ⟨false, r, q, []⟩
  | .timer :: rest, r, q => ⟨false, r, q, rest⟩
  | .onVerAck :: rest, r, q => ⟨true, r, q, rest⟩
  | .onVersion msg :: rest, r, q => awaitVerack rest (OnVersion r msg) q
  | .onAddr msg :: rest, r, q => awaitVerack rest r (q ++ [msg])

/-- Outcome of the second `select`. -/
structure AddrWait where
  /-- the message taken from `onAddr`, `none` when the 6 second timer fired -/
  received : Option MsgAddr
  /-- the result as the listeners left it -/
  r : result
  /-- events not yet consumed -/
  rest : List Event
deriving DecidableEq, Repr

/-- The second `select` (crawler.go, lines 116-119).  A sender already
blocked on `onAddr` is served first; a further `OnVerAck` invocation blocks
on `verack`, which nobody reads any more. -/
def awaitAddr : List MsgAddr → List Event → result → AddrWait
  | msg :: _, sched, r => ⟨some msg, r, sched⟩
  | [], [], r => ⟨none, r, []⟩
  | [], .timer :: rest, r => ⟨none, r, rest⟩
  | [], .onAddr msg :: rest, r => ⟨some msg, r, rest⟩
  | [], .onVersion msg :: rest, r => awaitAddr [] rest (OnVersion r msg)
  | [], .onVerAck :: rest, r => awaitAddr [] rest r

/-- What one call of `crawlIP` leaves behind: the two return values, the
result behind the pointer `r`, the library calls made, and the state of the
connection. -/
structure CrawlRun where
  nas : GoSlice NetAddress
  err : Option crawlError
  r : result
  trace : List Action
  /-- events of the schedule that had not happened when `crawlIP` returned -/
  rest : List Event
  /-- whether a connection was associated with the peer and `crawlIP` returned
  without `Disconnect`: the listeners can then still be invoked -/
  connOpen : Bool
deriving DecidableEq, Repr

/-- The `peer.Config` built at crawler.go, lines 51-59. -/
def peerCfg (s : dnsseeder) : PeerConfig :=
  { UserAgentName := "bitcoin-seeder"
    UserAgentVersion := "1.0.0"
    Net := s.id
    ProtocolVersion := s.pver
    Services := 0 }

/-- The function `crawlIP` (crawler.go, lines 47-126). -/
def crawlIP (w : World) (s : dnsseeder) (r : result) : CrawlRun :=
  match w.newOutboundPeer (peerCfg s) r.node with
  | .error err =>
    ⟨.nil, some ⟨"NewOutboundPeer: error", err⟩, r, [.newOutboundPeer], w.schedule, false⟩
  | .ok p =>
    match w.dial "tcp" p.Addr with
    | .error err =>
      ⟨.nil, some ⟨"net.Dial: error", err⟩, r, [.newOutboundPeer, .dial], w.schedule, false⟩
    | .ok _conn =>
      let hs := awaitVerack w.schedule r []
      if hs.acked = false then
        ⟨.nil, some ⟨"Verack timeout", errors.New ""⟩, hs.r,
          [.newOutboundPeer, .dial, .associateConnection, .awaitVerack], hs.rest, true⟩
      else if (s.theList.length : Int) > s.maxSize then
        ⟨.nil, none, hs.r,
          [.newOutboundPeer, .dial, .associateConnection, .awaitVerack], hs.rest, true⟩
      else
        let aw := awaitAddr hs.onAddr hs.rest hs.r
        let addrMsg := match aw.received with
          | some msg => msg
          | none => MsgAddr.new
        ⟨addrMsg.AddrList, none, aw.r,
          [.newOutboundPeer, .dial, .associateConnection, .awaitVerack,
           .queueGetAddr, .awaitAddr, .disconnect, .waitForDisconnect], aw.rest, false⟩

/-! ## crawlNode -/

/-- Go composite literal `&result{node: ...}` (crawler.go, lines 32-34): every
other field has its zero value. -/
def result.new (node : String) : result :=
  { nas := .nil, msg := none, node := node
    version := 0, services := 0, lastBlock := 0, strVersion := "" }

/-- The version messages of the `OnVersion` invocations among some events,
oldest first. -/
def versionsOf : List Event → List MsgVersion
  | [] => []
  | .onVersion msg :: rest => msg :: versionsOf rest
  | .onVerAck :: rest => versionsOf rest
  | .onAddr _ :: rest => versionsOf rest
  | .timer :: rest => versionsOf rest

/-- A `*result` as it travels on the results channel: `cell` is what the
pointer points to at the moment of the send.  The `OnVersion` closure holds
the same pointer, so while the connection is open the events in `rest` still
write to the cell. -/
structure resultRef where
  cell : result
  /-- events of the schedule that had not happened at the moment of the send -/
  rest : List Event
  /-- whether the connection was left open, so that they still happen -/
  connOpen : Bool
deriving DecidableEq, Repr

/-- The events that reach the listeners between the send and a read that
comes `k` events later. -/
def resultRef.written (ref : resultRef) (k : Nat) : List Event :=
  if ref.connOpen then ref.rest.take k else []

/-- The events of the schedule that have still not happened at that read. -/
def resultRef.later (ref : resultRef) (k : Nat) : List Event :=
  if ref.connOpen then ref.rest.drop k else ref.rest

/-- What the seeder finds behind the pointer when it reads it `k` events
after the send: `OnVersion` is the one listener that writes to the result;
`OnVerAck` and `OnAddr` block on channels that nobody reads any more. -/
def resultRef.read (ref : resultRef) (k : Nat) : result :=
  (versionsOf (ref.written k)).foldl OnVersion ref.cell

/-- The function `crawlNode` (crawler.go, lines 30-44).  The results channel
`rc` is the list of pointers sent on it so far; the function returns the
channel after the goroutine has ended. -/
def crawlNode (w : World) (rc : List resultRef) (s : dnsseeder) (nd : node) :
    List resultRef :=
  let res := result.new (JoinHostPort (w.ipString nd.na.IP) (Itoa nd.na.Port))
  let run := crawlIP w s res
  let res := { run.r with nas := run.nas, msg := run.err }
  rc ++ [⟨res, run.rest, run.connOpen⟩]

/-! ## Describing a run

The hypotheses of the theorems below speak about the schedule alone. -/

/-- The four fields of a result that the `OnVersion` listener writes,
gathered as the version message that would have written them. -/
def result.remote (r : result) : MsgVersion :=
  ⟨r.version, r.services, r.lastBlock, r.strVersion⟩

/-- Whether the peer package invokes `OnVerAck` before the 5 second timer
fires. -/
def verackBeforeTimer : List Event → Bool
  | [] => false
  | .timer :: _ => false
  | .onVerAck :: _ => true
  | .onVersion _ :: rest => verackBeforeTimer rest
  | .onAddr _ :: rest => verackBeforeTimer rest

/-- The version messages handed to `OnVersion` before the first `select` is
over, oldest first. -/
def versionsInHandshake : List Event → List MsgVersion
  | [] => []
  | .timer :: _ => []
  | .onVerAck :: _ => []
  | .onVersion msg :: rest => msg :: versionsInHandshake rest
  | .onAddr _ :: rest => versionsInHandshake rest

/-- The first address message in a schedule that starts after the verack,
if it comes before the 6 second timer fires. -/
def addrAfterVerack : List Event → Option MsgAddr
  | [] => none
  | .timer :: _ => none
  | .onAddr msg :: _ => some msg
  | .onVersion _ :: rest => addrAfterVerack rest
  | .onVerAck :: rest => addrAfterVerack rest

/-- The address message the engine receives in a whole schedule: the first
one the peer package delivers, provided the verack comes before the 5 second
timer and the message before the 6 second timer. -/
def addrBeforeTimer : List Event → Option MsgAddr
  | [] => none
  | .timer :: _ => none
  | .onVerAck :: rest => addrAfterVerack rest
  | .onVersion _ :: rest => addrBeforeTimer rest
  | .onAddr msg :: rest => if verackBeforeTimer rest then some msg else none

/-- Session construction fails with `cause`. -/
def constructionFails (w : World) (s : dnsseeder) (r : result) (cause : GoError) : Prop :=
  w.newOutboundPeer (peerCfg s) r.node = .error cause

/-- Session construction succeeds and the TCP dial fails with `cause`. -/
def dialFails (w : World) (s : dnsseeder) (r : result) (cause : GoError) : Prop :=
  ∃ p, w.newOutboundPeer (peerCfg s) r.node = .ok p ∧ w.dial "tcp" p.Addr = .error cause

/-- Session construction and the TCP dial both succeed. -/
def connected (w : World) (s : dnsseeder) (r : result) : Prop :=
  ∃ p conn, w.newOutboundPeer (peerCfg s) r.node = .ok p ∧ w.dial "tcp" p.Addr = .ok conn

/-- The fixed order of the protocol actions. -/
def protocolSequence : List Action :=
  [.newOutboundPeer, .dial, .associateConnection, .awaitVerack,
   .queueGetAddr, .awaitAddr, .disconnect, .waitForDisconnect]

/-! ## Concrete runs -/

/-- A version message as a peer advertises it. -/
def sampleVersion : MsgVersion := ⟨70015, 1, 500000, "/Satoshi:0.15.1/"⟩

/-- Two peer addresses as a peer gossips them. -/
def sampleAddrs : List NetAddress :=
  [⟨1500000000, 1, [198, 51, 100, 9], 8333⟩, ⟨1500000001, 1, [192, 0, 2, 44], 8333⟩]

/-- The target 203.0.113.5:8333. -/
def sampleNode : node := ⟨⟨0, 0, [203, 0, 113, 5], 8333⟩⟩

/-- A world in which construction and dial succeed and `schedule` happens. -/
def worldWith (schedule : List Event) : World :=
  { ipString := fun _ => "203.0.113.5"
    newOutboundPeer := fun _ addr => .ok ⟨addr⟩
    dial := fun _ _ => .ok ⟨3⟩
    schedule := schedule }

/-- A world in which the peer package rejects the address. -/
def worldBadAddress : World :=
  { worldWith [] with newOutboundPeer := fun _ _ => .error ⟨"missing port in address"⟩ }

/-- A world in which the remote host refuses the connection. -/
def worldRefused : World :=
  { worldWith [] with dial := fun _ _ => .error ⟨"connection refused"⟩ }

/-- The peer sends its version and then nothing: the 5 second timer fires. -/
def worldNoVerack : World := worldWith [.onVersion sampleVersion, .timer]

/-- The peer sends its version only after the 5 second timer has fired. -/
def worldLateVersion : World := worldWith [.timer, .onVersion sampleVersion]

/-- The pointer `crawlNode` sends in `worldLateVersion`: the cell still has
its zero values, and the version message is yet to come on the open
connection. -/
def lateVersionRef : resultRef :=
  { cell :=
      { nas := .nil
        msg := some ⟨"Verack timeout", errors.New ""⟩
        node := "203.0.113.5:8333"
        version := 0
        services := 0
        lastBlock := 0
        strVersion := "" }
    rest := [.onVersion sampleVersion]
    connOpen := true }

/-- The peer completes the handshake and answers the address request. -/
def worldAnswers : World :=
  worldWith [.onVersion sampleVersion, .onVerAck, .onAddr ⟨.ofList sampleAddrs⟩]

/-- The peer completes the handshake and never answers the address request. -/
def worldNoAddr : World := worldWith [.onVersion sampleVersion, .onVerAck, .timer]

/-- A seeder that knows `known` peers and has the maximum `maxSize`. -/
def seederWith (known : Nat) (maxSize : Int) : dnsseeder :=
  { id := 3652501241, pver := 70001, name := "mainnet"
    theList := List.replicate known sampleNode, maxSize := maxSize }

/-! ## Lemmas on the two waits -/

theorem awaitVerack_acked (sched : List Event) (r : result) (q : List MsgAddr) :
    (awaitVerack sched r q).acked = verackBeforeTimer sched := by
  induction sched generalizing r q with
  | nil => rfl
  | cons e rest ih => cases e <;> simp [awaitVerack, verackBeforeTimer, ih]

theorem awaitVerack_r (sched : List Event) (r : result) (q : List MsgAddr) :
    (awaitVerack sched r q).r = (versionsInHandshake sched).foldl OnVersion r := by
  induction sched generalizing r q with
  | nil => rfl
  | cons e rest ih => cases e <;> simp [awaitVerack, versionsInHandshake, ih]

theorem awaitAddr_nil_received (sched : List Event) (r : result) :
    (awaitAddr [] sched r).received = addrAfterVerack sched := by
  induction sched generalizing r with
  | nil => rfl
  | cons e rest ih => cases e <;> simp [awaitAddr, addrAfterVerack, ih]

theorem awaitAddr_cons_received (msg : MsgAddr) (q : List MsgAddr) (sched : List Event)
    (r : result) : (awaitAddr (msg :: q) sched r).received = some msg := by
  simp [awaitAddr]

/-- After an acknowledged handshake the second `select` receives the oldest
blocked `OnAddr` message, or else the first one that arrives in time. -/
theorem awaitAddr_after_awaitVerack (sched : List Event) (r : result) (q : List MsgAddr)
    (hack : verackBeforeTimer sched = true) :
    (awaitAddr (awaitVerack sched r q).onAddr (awaitVerack sched r q).rest
        (awaitVerack sched r q).r).received
      = (q.head?).orElse (fun _ => addrBeforeTimer sched) := by
  induction sched generalizing r q with
  | nil => simp [verackBeforeTimer] at hack
  | cons e rest ih =>
    cases e with
    | timer => simp [verackBeforeTimer] at hack
    | onVerAck =>
      cases q with
      | nil => simp [awaitVerack, addrBeforeTimer, awaitAddr_nil_received]
      | cons m q => simp [awaitVerack, awaitAddr]
    | onVersion msg =>
      simp only [verackBeforeTimer] at hack
      simp [awaitVerack, addrBeforeTimer, ih _ _ hack]
    | onAddr msg =>
      simp only [verackBeforeTimer] at hack
      cases q with
      | nil => simp [awaitVerack, addrBeforeTimer, ih _ _ hack, hack]
      | cons m q => simp [awaitVerack, ih _ _ hack]

theorem OnVersion_node (r : result) (msg : MsgVersion) : (OnVersion r msg).node = r.node := rfl

theorem OnVersion_remote (r : result) (msg : MsgVersion) : (OnVersion r msg).remote = msg := rfl

theorem foldl_OnVersion_node (vs : List MsgVersion) (r : result) :
    (vs.foldl OnVersion r).node = r.node := by
  induction vs generalizing r with
  | nil => rfl
  | cons v vs ih => simp [List.foldl, ih, OnVersion_node]

theorem foldl_OnVersion_remote (vs : List MsgVersion) (r : result) :
    (vs.foldl OnVersion r).remote = (vs.getLast?).getD r.remote := by
  induction vs generalizing r with
  | nil => rfl
  | cons v vs ih =>
    cases vs with
    | nil => simp [OnVersion_remote]
    | cons v2 vs =>
      rw [List.foldl, ih, List.getLast?_cons_cons]
      cases h : (v2 :: vs).getLast? with
      | none => simp at h
      | some x => rfl

theorem awaitAddr_node (q : List MsgAddr) (sched : List Event) (r : result) :
    (awaitAddr q sched r).r.node = r.node := by
  cases q with
  | cons m q => simp [awaitAddr]
  | nil =>
    induction sched generalizing r with
    | nil => rfl
    | cons e rest ih => cases e <;> simp [awaitAddr, ih, OnVersion_node]

/-! ## The five paths of crawlIP -/

theorem crawlIP_constructionFails (w : World) (s : dnsseeder) (r : result) (cause : GoError)
    (h : constructionFails w s r cause) :
    crawlIP w s r = ⟨.nil, some ⟨"NewOutboundPeer: error", cause⟩, r, [.newOutboundPeer],
      w.schedule, false⟩ := by
  unfold constructionFails at h
  simp [crawlIP, h]

theorem crawlIP_dialFails (w : World) (s : dnsseeder) (r : result) (cause : GoError)
    (h : dialFails w s r cause) :
    crawlIP w s r = ⟨.nil, some ⟨"net.Dial: error", cause⟩, r, [.newOutboundPeer, .dial],
      w.schedule, false⟩ := by
  obtain ⟨p, hp, hd⟩ := h
  simp [crawlIP, hp, hd]

theorem crawlIP_verackTimeout (w : World) (s : dnsseeder) (r : result)
    (hc : connected w s r) (ht : verackBeforeTimer w.schedule = false) :
    crawlIP w s r = ⟨.nil, some ⟨"Verack timeout", errors.New ""⟩,
      (versionsInHandshake w.schedule).foldl OnVersion r,
      [.newOutboundPeer, .dial, .associateConnection, .awaitVerack],
      (awaitVerack w.schedule r []).rest, true⟩ := by
  obtain ⟨p, conn, hp, hd⟩ := hc
  simp [crawlIP, hp, hd, awaitVerack_acked, ht, awaitVerack_r]

theorem crawlIP_skipped (w : World) (s : dnsseeder) (r : result)
    (hc : connected w s r) (ha : verackBeforeTimer w.schedule = true)
    (hfull : (s.theList.length : Int) > s.maxSize) :
    crawlIP w s r = ⟨.nil, none, (versionsInHandshake w.schedule).foldl OnVersion r,
      [.newOutboundPeer, .dial, .associateConnection, .awaitVerack],
      (awaitVerack w.schedule r []).rest, true⟩ := by
  obtain ⟨p, conn, hp, hd⟩ := hc
  simp only [crawlIP, hp, hd, awaitVerack_acked, ha, awaitVerack_r]
  simp [if_pos hfull]

theorem crawlIP_asked (w : World) (s : dnsseeder) (r : result)
    (hc : connected w s r) (ha : verackBeforeTimer w.schedule = true)
    (hroom : ¬ (s.theList.length : Int) > s.maxSize) :
    (crawlIP w s r).nas
        = (match addrBeforeTimer w.schedule with
           | some msg => msg
           | none => MsgAddr.new).AddrList ∧
      (crawlIP w s r).err = none ∧
      (crawlIP w s r).r.node = r.node ∧
      (crawlIP w s r).trace = protocolSequence := by
  obtain ⟨p, conn, hp, hd⟩ := hc
  have hrec := awaitAddr_after_awaitVerack w.schedule r [] ha
  simp only [List.head?_nil, Option.orElse] at hrec
  simp only [crawlIP, hp, hd, awaitVerack_acked, ha]
  simp only [if_neg hroom, hrec]
  simp [protocolSequence, awaitAddr_node, awaitVerack_r, foldl_OnVersion_node]

/-- Every run of `crawlIP` takes one of the five paths. -/
theorem crawlIP_paths (w : World) (s : dnsseeder) (r : result) :
    (∃ cause, constructionFails w s r cause) ∨ (∃ cause, dialFails w s r cause) ∨
    (connected w s r ∧ verackBeforeTimer w.schedule = false) ∨
    (connected w s r ∧ verackBeforeTimer w.schedule = true ∧
      (s.theList.length : Int) > s.maxSize) ∨
    (connected w s r ∧ verackBeforeTimer w.schedule = true ∧
      ¬ (s.theList.length : Int) > s.maxSize) := by
  cases hp : w.newOutboundPeer (peerCfg s) r.node with
  | error cause => exact Or.inl ⟨cause, hp⟩
  | ok p =>
    cases hd : w.dial "tcp" p.Addr with
    | error cause => exact Or.inr (Or.inl ⟨cause, p, hp, hd⟩)
    | ok conn =>
      have hc : connected w s r := ⟨p, conn, hp, hd⟩
      cases ha : verackBeforeTimer w.schedule with
      | false => exact Or.inr (Or.inr (Or.inl ⟨hc, rfl⟩))
      | true =>
        by_cases hfull : (s.theList.length : Int) > s.maxSize
        · exact Or.inr (Or.inr (Or.inr (Or.inl ⟨hc, rfl, hfull⟩)))
        · exact Or.inr (Or.inr (Or.inr (Or.inr ⟨hc, rfl, hfull⟩)))

theorem crawlIP_node (w : World) (s : dnsseeder) (r : result) :
    (crawlIP w s r).r.node = r.node := by
  rcases crawlIP_paths w s r with ⟨c, h⟩ | ⟨c, h⟩ | ⟨hc, ht⟩ | ⟨hc, ha, hf⟩ | ⟨hc, ha, hr⟩
  · rw [crawlIP_constructionFails w s r c h]
  · rw [crawlIP_dialFails w s r c h]
  · rw [crawlIP_verackTimeout w s r hc ht]; exact foldl_OnVersion_node _ _
  · rw [crawlIP_skipped w s r hc ha hf]; exact foldl_OnVersion_node _ _
  · exact (crawlIP_asked w s r hc ha hr).2.2.1

/-! ## What the two waits consume -/

theorem versionsOf_append (a b : List Event) :
    versionsOf (a ++ b) = versionsOf a ++ versionsOf b := by
  induction a with
  | nil => rfl
  | cons e rest ih => cases e <;> simp [versionsOf, ih]

/-- The first `select` consumes an initial segment of the schedule, and the
version messages in it are the ones `OnVersion` has recorded. -/
theorem awaitVerack_split (sched : List Event) (r : result) (q : List MsgAddr) :
    ∃ happened, sched = happened ++ (awaitVerack sched r q).rest ∧
      versionsOf happened = versionsInHandshake sched := by
  induction sched generalizing r q with
  | nil => exact ⟨[], rfl, rfl⟩
  | cons e rest ih =>
    cases e with
    | timer => exact ⟨[.timer], rfl, rfl⟩
    | onVerAck => exact ⟨[.onVerAck], rfl, rfl⟩
    | onVersion msg =>
      obtain ⟨h, hs, hv⟩ := ih (OnVersion r msg) q
      exact ⟨.onVersion msg :: h, by simp only [awaitVerack, List.cons_append, ← hs],
        by simp [versionsOf, versionsInHandshake, hv]⟩
    | onAddr msg =>
      obtain ⟨h, hs, hv⟩ := ih r (q ++ [msg])
      exact ⟨.onAddr msg :: h, by simp only [awaitVerack, List.cons_append, ← hs],
        by simp [versionsOf, versionsInHandshake, hv]⟩

/-- The second `select` consumes an initial segment of what is left, and
`OnVersion` has recorded the version messages in it. -/
theorem awaitAddr_split (q : List MsgAddr) (sched : List Event) (r : result) :
    ∃ happened, sched = happened ++ (awaitAddr q sched r).rest ∧
      (awaitAddr q sched r).r = (versionsOf happened).foldl OnVersion r := by
  cases q with
  | cons m q => exact ⟨[], by simp [awaitAddr], by simp [awaitAddr, versionsOf]⟩
  | nil =>
    induction sched generalizing r with
    | nil => exact ⟨[], rfl, rfl⟩
    | cons e rest ih =>
      cases e with
      | timer => exact ⟨[.timer], rfl, rfl⟩
      | onAddr msg => exact ⟨[.onAddr msg], rfl, rfl⟩
      | onVersion msg =>
        obtain ⟨h, hs, hr⟩ := ih (OnVersion r msg)
        exact ⟨.onVersion msg :: h, by simp only [awaitAddr, List.cons_append, ← hs],
          by simp [awaitAddr, versionsOf, hr]⟩
      | onVerAck =>
        obtain ⟨h, hs, hr⟩ := ih r
        exact ⟨.onVerAck :: h, by simp only [awaitAddr, List.cons_append, ← hs],
          by simp [awaitAddr, versionsOf, hr]⟩

/-- On every path the result `crawlIP` leaves behind carries the writes of
exactly the `OnVersion` invocations that happened before it returned. -/
theorem crawlIP_split (w : World) (s : dnsseeder) (r : result) :
    ∃ happened, w.schedule = happened ++ (crawlIP w s r).rest ∧
      (crawlIP w s r).r = (versionsOf happened).foldl OnVersion r := by
  rcases crawlIP_paths w s r with ⟨c, h⟩ | ⟨c, h⟩ | ⟨hc, ht⟩ | ⟨hc, ha, hf⟩ | ⟨hc, ha, hr⟩
  · rw [crawlIP_constructionFails w s r c h]
    exact ⟨[], rfl, rfl⟩
  · rw [crawlIP_dialFails w s r c h]
    exact ⟨[], rfl, rfl⟩
  · rw [crawlIP_verackTimeout w s r hc ht]
    obtain ⟨h, hs, hv⟩ := awaitVerack_split w.schedule r []
    exact ⟨h, hs, by rw [hv]⟩
  · rw [crawlIP_skipped w s r hc ha hf]
    obtain ⟨h, hs, hv⟩ := awaitVerack_split w.schedule r []
    exact ⟨h, hs, by rw [hv]⟩
  · obtain ⟨p, conn, hp, hd⟩ := hc
    obtain ⟨h1, hs1, hv1⟩ := awaitVerack_split w.schedule r []
    obtain ⟨h2, hs2, hr2⟩ := awaitAddr_split (awaitVerack w.schedule r []).onAddr
      (awaitVerack w.schedule r []).rest (awaitVerack w.schedule r []).r
    simp only [crawlIP, hp, hd, awaitVerack_acked, ha]
    rw [if_neg (by simp), if_neg hr]
    refine ⟨h1 ++ h2, ?_, ?_⟩
    · rw [List.append_assoc, ← hs2, ← hs1]
    · rw [hr2, versionsOf_append, List.foldl_append, hv1, awaitVerack_r]

theorem foldl_OnVersion_nas (vs : List MsgVersion) (r : result) :
    (vs.foldl OnVersion r).nas = r.nas := by
  induction vs generalizing r with
  | nil => rfl
  | cons v vs ih => simp [List.foldl, ih, OnVersion]

theorem foldl_OnVersion_msg (vs : List MsgVersion) (r : result) :
    (vs.foldl OnVersion r).msg = r.msg := by
  induction vs generalizing r with
  | nil => rfl
  | cons v vs ih => simp [List.foldl, ih, OnVersion]

theorem getLast?_append_getD (a b : List MsgVersion) (d : MsgVersion) :
    ((a ++ b).getLast?).getD d = (b.getLast?).getD ((a.getLast?).getD d) := by
  cases b with
  | nil => simp
  | cons x b =>
    rw [List.getLast?_append_of_ne_nil a (List.cons_ne_nil x b)]
    cases h : (x :: b).getLast? with
    | none => simp at h
    | some y => rfl

/-! ## Crawl task -/

/-- The one pointer `crawlNode` sends. -/
theorem crawlNode_unfold (w : World) (rc : List resultRef) (s : dnsseeder) (nd : node) :
    crawlNode w rc s nd
      = rc ++ [⟨{ (crawlIP w s (result.new
                    (JoinHostPort (w.ipString nd.na.IP) (Itoa nd.na.Port)))).r with
                  nas := (crawlIP w s (result.new
                    (JoinHostPort (w.ipString nd.na.IP) (Itoa nd.na.Port)))).nas
                  msg := (crawlIP w s (result.new
                    (JoinHostPort (w.ipString nd.na.IP) (Itoa nd.na.Port)))).err },
                (crawlIP w s (result.new
                    (JoinHostPort (w.ipString nd.na.IP) (Itoa nd.na.Port)))).rest,
                (crawlIP w s (result.new
                    (JoinHostPort (w.ipString nd.na.IP) (Itoa nd.na.Port)))).connOpen⟩] := rfl

/-- C1: for every target and every outcome of the engine, `crawlNode` sends
exactly one result on the results channel and nothing after it; the node
field of that result is the host:port string of the target, and its nas and
msg fields are the address list and the error that `crawlIP` returned, at the
moment of the send and whenever the seeder reads the result afterwards. -/
theorem crawlNode_sends_exactly_one (w : World) (rc : List resultRef) (s : dnsseeder)
    (nd : node) :
    ∃ res : resultRef,
      crawlNode w rc s nd = rc ++ [res] ∧
      (crawlNode w rc s nd).length = rc.length + 1 ∧
      res.cell.node = JoinHostPort (w.ipString nd.na.IP) (Itoa nd.na.Port) ∧
      res.cell.nas = (crawlIP w s (result.new
        (JoinHostPort (w.ipString nd.na.IP) (Itoa nd.na.Port)))).nas ∧
      res.cell.msg = (crawlIP w s (result.new
        (JoinHostPort (w.ipString nd.na.IP) (Itoa nd.na.Port)))).err ∧
      ∀ k, (res.read k).node = JoinHostPort (w.ipString nd.na.IP) (Itoa nd.na.Port) ∧
        (res.read k).nas = (crawlIP w s (result.new
          (JoinHostPort (w.ipString nd.na.IP) (Itoa nd.na.Port)))).nas ∧
        (res.read k).msg = (crawlIP w s (result.new
          (JoinHostPort (w.ipString nd.na.IP) (Itoa nd.na.Port)))).err := by
  refine ⟨_, crawlNode_unfold w rc s nd, ?_, ?_, rfl, rfl, fun k => ⟨?_, ?_, ?_⟩⟩
  · simp [crawlNode_unfold]
  · exact crawlIP_node w s _
  · rw [resultRef.read, foldl_OnVersion_node]
    exact crawlIP_node w s _
  · rw [resultRef.read, foldl_OnVersion_nas]
  · rw [resultRef.read, foldl_OnVersion_msg]

/-! ## Connection errors -/

/-- C2: when constructing the outbound peer fails, or the dial fails,
`crawlIP` returns a nil address list and a non-nil `crawlError` that wraps the
cause unchanged; the tag of a construction failure differs from the tag of a
dial failure; no connection is associated and no address request is sent. -/
theorem crawlIP_connection_error (w : World) (s : dnsseeder) (r : result) (cause : GoError)
    (w2 : World) (s2 : dnsseeder) (r2 : result) (cause2 : GoError)
    (hc : constructionFails w s r cause) (hd : dialFails w2 s2 r2 cause2) :
    ((crawlIP w s r).nas = .nil ∧
      (crawlIP w s r).err = some ⟨"NewOutboundPeer: error", cause⟩ ∧
      Action.associateConnection ∉ (crawlIP w s r).trace ∧
      Action.queueGetAddr ∉ (crawlIP w s r).trace) ∧
    ((crawlIP w2 s2 r2).nas = .nil ∧
      (crawlIP w2 s2 r2).err = some ⟨"net.Dial: error", cause2⟩ ∧
      Action.associateConnection ∉ (crawlIP w2 s2 r2).trace ∧
      Action.queueGetAddr ∉ (crawlIP w2 s2 r2).trace) ∧
    (∀ e e2, (crawlIP w s r).err = some e → (crawlIP w2 s2 r2).err = some e2 →
      e.errLoc ≠ e2.errLoc) := by
  rw [crawlIP_constructionFails w s r cause hc, crawlIP_dialFails w2 s2 r2 cause2 hd]
  refine ⟨⟨rfl, rfl, by simp, by simp⟩, ⟨rfl, rfl, by simp, by simp⟩, ?_⟩
  intro e e2 he he2
  simp only [Option.some.injEq] at he he2
  subst he
  subst he2
  show ("NewOutboundPeer: error" : String) ≠ "net.Dial: error"
  decide

theorem crawlIP_connection_error_witness :
    constructionFails worldBadAddress (seederWith 0 10) (result.new "203.0.113.5")
        ⟨"missing port in address"⟩ ∧
      dialFails worldRefused (seederWith 0 10) (result.new "203.0.113.5:8333")
        ⟨"connection refused"⟩ ∧
      (crawlIP worldBadAddress (seederWith 0 10) (result.new "203.0.113.5")).err
        = some ⟨"NewOutboundPeer: error", ⟨"missing port in address"⟩⟩ ∧
      (crawlIP worldRefused (seederWith 0 10) (result.new "203.0.113.5:8333")).err
        = some ⟨"net.Dial: error", ⟨"connection refused"⟩⟩ :=
  ⟨rfl, ⟨⟨"203.0.113.5:8333"⟩, rfl, rfl⟩,
    (crawlIP_connection_error worldBadAddress (seederWith 0 10) (result.new "203.0.113.5")
      ⟨"missing port in address"⟩ worldRefused (seederWith 0 10)
      (result.new "203.0.113.5:8333") ⟨"connection refused"⟩
      rfl ⟨⟨"203.0.113.5:8333"⟩, rfl, rfl⟩).1.2.1,
    (crawlIP_connection_error worldBadAddress (seederWith 0 10) (result.new "203.0.113.5")
      ⟨"missing port in address"⟩ worldRefused (seederWith 0 10)
      (result.new "203.0.113.5:8333") ⟨"connection refused"⟩
      rfl ⟨⟨"203.0.113.5:8333"⟩, rfl, rfl⟩).2.1.2.1⟩

/-! ## Handshake timeout -/

/-- C3: when the dial succeeds and the 5 second timer fires before any verack
is received, `crawlIP` returns a nil address list and a non-nil `crawlError`
tagged "Verack timeout" whose cause has an empty message, and sends no
address request, whatever the list size and the threshold are. -/
theorem crawlIP_verack_timeout (w : World) (s : dnsseeder) (r : result)
    (hc : connected w s r) (ht : verackBeforeTimer w.schedule = false) :
    (crawlIP w s r).nas = .nil ∧
    (crawlIP w s r).err = some ⟨"Verack timeout", errors.New ""⟩ ∧
    (crawlIP w s r).err ≠ none ∧
    (errors.New "").text = "" ∧
    Action.queueGetAddr ∉ (crawlIP w s r).trace := by
  rw [crawlIP_verackTimeout w s r hc ht]
  exact ⟨rfl, rfl, by simp, rfl, by simp⟩

theorem crawlIP_verack_timeout_witness :
    connected worldNoVerack (seederWith 0 10) (result.new "203.0.113.5:8333") ∧
      verackBeforeTimer worldNoVerack.schedule = false ∧
      (crawlIP worldNoVerack (seederWith 0 10) (result.new "203.0.113.5:8333")).err
        = some ⟨"Verack timeout", errors.New ""⟩ :=
  ⟨⟨⟨"203.0.113.5:8333"⟩, ⟨3⟩, rfl, rfl⟩, rfl,
    (crawlIP_verack_timeout worldNoVerack (seederWith 0 10) (result.new "203.0.113.5:8333")
      ⟨⟨"203.0.113.5:8333"⟩, ⟨3⟩, rfl, rfl⟩ rfl).2.1⟩

/-! ## Capacity check -/

/-- C4: when the verack arrives before the handshake timer, the address
request is skipped if and only if `len(s.theList) > s.maxSize`; in the skipped
case `crawlIP` returns a nil list and a nil error, and the version, services,
lastBlock and user-agent fields of the result hold the values of the version
message that `OnVersion` recorded. -/
theorem crawlIP_capacity_skip (w : World) (s : dnsseeder) (r : result)
    (hc : connected w s r) (ha : verackBeforeTimer w.schedule = true) :
    (Action.queueGetAddr ∉ (crawlIP w s r).trace ↔ (s.theList.length : Int) > s.maxSize) ∧
    ((s.theList.length : Int) > s.maxSize →
      (crawlIP w s r).nas = .nil ∧ (crawlIP w s r).err = none ∧
      ∀ msg, (versionsInHandshake w.schedule).getLast? = some msg →
        (crawlIP w s r).r.version = msg.ProtocolVersion ∧
        (crawlIP w s r).r.services = msg.Services ∧
        (crawlIP w s r).r.lastBlock = msg.LastBlock ∧
        (crawlIP w s r).r.strVersion = msg.UserAgent) := by
  by_cases hfull : (s.theList.length : Int) > s.maxSize
  · rw [crawlIP_skipped w s r hc ha hfull]
    refine ⟨⟨fun _ => hfull, fun _ => by simp⟩, fun _ => ⟨rfl, rfl, ?_⟩⟩
    intro msg hlast
    have hrem := foldl_OnVersion_remote (versionsInHandshake w.schedule) r
    rw [hlast] at hrem
    simp only [Option.getD_some] at hrem
    exact ⟨congrArg MsgVersion.ProtocolVersion hrem, congrArg MsgVersion.Services hrem,
      congrArg MsgVersion.LastBlock hrem, congrArg MsgVersion.UserAgent hrem⟩
  · have hrun := crawlIP_asked w s r hc ha hfull
    refine ⟨⟨fun hnot => absurd ?_ hnot, fun h => absurd h hfull⟩, fun h => absurd h hfull⟩
    rw [hrun.2.2.2]
    simp [protocolSequence]

theorem crawlIP_capacity_skip_witness :
    connected worldAnswers (seederWith 2 1) (result.new "203.0.113.5:8333") ∧
      verackBeforeTimer worldAnswers.schedule = true ∧
      (((seederWith 2 1).theList.length : Int) > (seederWith 2 1).maxSize) ∧
      (crawlIP worldAnswers (seederWith 2 1) (result.new "203.0.113.5:8333")).nas = .nil ∧
      (crawlIP worldAnswers (seederWith 2 1) (result.new "203.0.113.5:8333")).err = none :=
  ⟨⟨⟨"203.0.113.5:8333"⟩, ⟨3⟩, rfl, rfl⟩, rfl, by decide,
    ((crawlIP_capacity_skip worldAnswers (seederWith 2 1) (result.new "203.0.113.5:8333")
      ⟨⟨"203.0.113.5:8333"⟩, ⟨3⟩, rfl, rfl⟩ rfl).2 (by decide)).1,
    ((crawlIP_capacity_skip worldAnswers (seederWith 2 1) (result.new "203.0.113.5:8333")
      ⟨⟨"203.0.113.5:8333"⟩, ⟨3⟩, rfl, rfl⟩ rfl).2 (by decide)).2.1⟩

/-! ## Address exchange -/

/-- C5: when the verack arrives, the capacity check allows a request and an
address message is received before the 6 second timer fires, `crawlIP`
returns a nil error and the `AddrList` of that message: the same elements, the
same length, the same order. -/
theorem crawlIP_addr_received (w : World) (s : dnsseeder) (r : result) (msg : MsgAddr)
    (hc : connected w s r) (ha : verackBeforeTimer w.schedule = true)
    (hroom : ¬ (s.theList.length : Int) > s.maxSize)
    (hmsg : addrBeforeTimer w.schedule = some msg) :
    (crawlIP w s r).err = none ∧
    (crawlIP w s r).nas = msg.AddrList ∧
    (crawlIP w s r).nas.toList = msg.AddrList.toList ∧
    (crawlIP w s r).nas.len = msg.AddrList.len := by
  have hrun := crawlIP_asked w s r hc ha hroom
  rw [hmsg] at hrun
  exact ⟨hrun.2.1, hrun.1, by rw [hrun.1], by rw [hrun.1]⟩

theorem crawlIP_addr_received_witness :
    connected worldAnswers (seederWith 1 1) (result.new "203.0.113.5:8333") ∧
      verackBeforeTimer worldAnswers.schedule = true ∧
      (¬ ((seederWith 1 1).theList.length : Int) > (seederWith 1 1).maxSize) ∧
      addrBeforeTimer worldAnswers.schedule = some ⟨.ofList sampleAddrs⟩ ∧
      (crawlIP worldAnswers (seederWith 1 1) (result.new "203.0.113.5:8333")).nas.toList
        = sampleAddrs :=
  ⟨⟨⟨"203.0.113.5:8333"⟩, ⟨3⟩, rfl, rfl⟩, rfl, by decide, rfl,
    (crawlIP_addr_received worldAnswers (seederWith 1 1) (result.new "203.0.113.5:8333")
      ⟨.ofList sampleAddrs⟩ ⟨⟨"203.0.113.5:8333"⟩, ⟨3⟩, rfl, rfl⟩ rfl (by decide) rfl).2.2.1⟩

/-- C6: when the verack arrives, the capacity check allows a request and the
6 second timer fires before any address message is received, `crawlIP` returns
a nil error and an address list of length 0; the address timeout is not
reported as a `crawlError`. -/
theorem crawlIP_addr_timeout (w : World) (s : dnsseeder) (r : result)
    (hc : connected w s r) (ha : verackBeforeTimer w.schedule = true)
    (hroom : ¬ (s.theList.length : Int) > s.maxSize)
    (hnone : addrBeforeTimer w.schedule = none) :
    (crawlIP w s r).err = none ∧
    (crawlIP w s r).nas.len = 0 ∧
    (crawlIP w s r).nas.toList = [] := by
  have hrun := crawlIP_asked w s r hc ha hroom
  rw [hnone] at hrun
  exact ⟨hrun.2.1, by rw [hrun.1]; rfl, by rw [hrun.1]; rfl⟩

theorem crawlIP_addr_timeout_witness :
    connected worldNoAddr (seederWith 0 10) (result.new "203.0.113.5:8333") ∧
      verackBeforeTimer worldNoAddr.schedule = true ∧
      (¬ ((seederWith 0 10).theList.length : Int) > (seederWith 0 10).maxSize) ∧
      addrBeforeTimer worldNoAddr.schedule = none ∧
      (crawlIP worldNoAddr (seederWith 0 10) (result.new "203.0.113.5:8333")).err = none ∧
      (crawlIP worldNoAddr (seederWith 0 10) (result.new "203.0.113.5:8333")).nas.len = 0 :=
  ⟨⟨⟨"203.0.113.5:8333"⟩, ⟨3⟩, rfl, rfl⟩, rfl, by decide, rfl,
    (crawlIP_addr_timeout worldNoAddr (seederWith 0 10) (result.new "203.0.113.5:8333")
      ⟨⟨"203.0.113.5:8333"⟩, ⟨3⟩, rfl, rfl⟩ rfl (by decide) rfl).1,
    (crawlIP_addr_timeout worldNoAddr (seederWith 0 10) (result.new "203.0.113.5:8333")
      ⟨⟨"203.0.113.5:8333"⟩, ⟨3⟩, rfl, rfl⟩ rfl (by decide) rfl).2.1⟩

/-! ## Order of the protocol actions -/

theorem not_connected_of_constructionFails (w : World) (s : dnsseeder) (r : result)
    (cause : GoError) (h : constructionFails w s r cause) : ¬ connected w s r := by
  rintro ⟨p, conn, hp, _⟩
  unfold constructionFails at h
  rw [hp] at h
  cases h

theorem not_connected_of_dialFails (w : World) (s : dnsseeder) (r : result)
    (cause : GoError) (h : dialFails w s r cause) : ¬ connected w s r := by
  rintro ⟨p, conn, hp, hd⟩
  obtain ⟨p2, hp2, hd2⟩ := h
  rw [hp] at hp2
  cases hp2
  rw [hd] at hd2
  cases hd2

/-- C10: in every run of `crawlIP` the protocol actions are an initial
segment of the fixed sequence construction, dial, associate, wait for verack,
queue getaddr, wait for addr, Disconnect, WaitForDisconnect; Disconnect and
then WaitForDisconnect are the last actions exactly on the runs that queued
the address request, and neither is performed on the connection-failure,
handshake-timeout and capacity-skip paths. -/
theorem crawlIP_action_order (w : World) (s : dnsseeder) (r : result) :
    (crawlIP w s r).trace <+: protocolSequence ∧
    (Action.queueGetAddr ∈ (crawlIP w s r).trace ↔
      connected w s r ∧ verackBeforeTimer w.schedule = true ∧
        ¬ (s.theList.length : Int) > s.maxSize) ∧
    (Action.queueGetAddr ∈ (crawlIP w s r).trace →
      ∃ before, (crawlIP w s r).trace = before ++ [.disconnect, .waitForDisconnect]) ∧
    (Action.queueGetAddr ∉ (crawlIP w s r).trace →
      Action.disconnect ∉ (crawlIP w s r).trace ∧
      Action.waitForDisconnect ∉ (crawlIP w s r).trace) := by
  rcases crawlIP_paths w s r with ⟨c, h⟩ | ⟨c, h⟩ | ⟨hc, ht⟩ | ⟨hc, ha, hf⟩ | ⟨hc, ha, hr⟩
  · rw [crawlIP_constructionFails w s r c h]
    have hn := not_connected_of_constructionFails w s r c h
    refine ⟨⟨_, rfl⟩, ⟨fun hm => ?_, fun hm => absurd hm.1 hn⟩, fun hm => ?_, fun _ => ?_⟩
    · simp at hm
    · simp at hm
    · simp
  · rw [crawlIP_dialFails w s r c h]
    have hn := not_connected_of_dialFails w s r c h
    refine ⟨⟨_, rfl⟩, ⟨fun hm => ?_, fun hm => absurd hm.1 hn⟩, fun hm => ?_, fun _ => ?_⟩
    · simp at hm
    · simp at hm
    · simp
  · rw [crawlIP_verackTimeout w s r hc ht]
    refine ⟨⟨_, rfl⟩, ⟨fun hm => ?_, fun hm => ?_⟩, fun hm => ?_, fun _ => ?_⟩
    · simp at hm
    · rw [ht] at hm
      simp at hm
    · simp at hm
    · simp
  · rw [crawlIP_skipped w s r hc ha hf]
    refine ⟨⟨_, rfl⟩, ⟨fun hm => ?_, fun hm => absurd hf hm.2.2⟩, fun hm => ?_, fun _ => ?_⟩
    · simp at hm
    · simp at hm
    · simp
  · rw [(crawlIP_asked w s r hc ha hr).2.2.2]
    refine ⟨⟨[], rfl⟩, ⟨fun _ => ⟨hc, ha, hr⟩, fun _ => by simp [protocolSequence]⟩,
      fun _ => ⟨[.newOutboundPeer, .dial, .associateConnection, .awaitVerack,
        .queueGetAddr, .awaitAddr], rfl⟩, fun hm => ?_⟩
    exact absurd (by simp [protocolSequence]) hm

/-! ## Which fields a reported result carries -/

theorem remote_fields (r : result) (msg : MsgVersion) (h : r.remote = msg) :
    r.version = msg.ProtocolVersion ∧ r.services = msg.Services ∧
      r.lastBlock = msg.LastBlock ∧ r.strVersion = msg.UserAgent :=
  ⟨congrArg MsgVersion.ProtocolVersion h, congrArg MsgVersion.Services h,
    congrArg MsgVersion.LastBlock h, congrArg MsgVersion.UserAgent h⟩

/-- Whenever the pointer is read, the four fields are those of the last
version message among the events that have happened by then. -/
theorem read_remote (w : World) (ref : resultRef) (happened : List Event) (d : MsgVersion)
    (hs : w.schedule = happened ++ ref.rest)
    (hcell : ref.cell.remote = ((versionsOf happened).getLast?).getD d) (k : Nat) :
    ∃ sofar, w.schedule = sofar ++ ref.later k ∧
      (ref.read k).remote = ((versionsOf sofar).getLast?).getD d := by
  cases hopen : ref.connOpen with
  | false =>
    refine ⟨happened, ?_, ?_⟩
    · simp [resultRef.later, hopen, hs]
    · simp [resultRef.read, resultRef.written, hopen, versionsOf, hcell]
  | true =>
    refine ⟨happened ++ ref.rest.take k, ?_, ?_⟩
    · simp [resultRef.later, hopen, hs]
    · simp only [resultRef.read, resultRef.written, hopen, if_true]
      rw [foldl_OnVersion_remote, hcell, versionsOf_append, getLast?_append_getD]

/-- C7, as the code has it: the peer sends its version and never a verack, so
the reported result carries the handshake-timeout error and the four fields
of the version message all the same. -/
theorem crawlNode_timeout_fields_counterexample :
    crawlNode worldNoVerack [] (seederWith 0 10) sampleNode
      = [{ cell :=
             { nas := .nil
               msg := some ⟨"Verack timeout", errors.New ""⟩
               node := "203.0.113.5:8333"
               version := 70015
               services := 1
               lastBlock := 500000
               strVersion := "/Satoshi:0.15.1/" }
           rest := []
           connOpen := true }] := by
  decide

/-- C7, amended: the four fields are written whenever a version message
reaches `OnVersion`, whether or not the handshake then completes.  A reported
result that carries a connection error has them at their zero values whenever
it is read.  One that carries the handshake-timeout error was sent on a
connection left open; at the moment of the send it has them at zero when
`OnVersion` did not run before the timer fired, and at the values of the last
version message when it did.  On every run and at every read, the fields are
zero if no version message has reached `OnVersion` by then, and are those of
the last one that has otherwise.  The address list is non-empty only if an
address message arrived before its timeout. -/
theorem crawlNode_fields_populated (w : World) (rc : List resultRef) (s : dnsseeder)
    (nd : node) (ref : resultRef) (hsent : crawlNode w rc s nd = rc ++ [ref]) (k : Nat) :
    (∀ e, ref.cell.msg = some e →
      e.errLoc = "NewOutboundPeer: error" ∨ e.errLoc = "net.Dial: error" →
      (ref.read k).version = 0 ∧ (ref.read k).services = 0 ∧
      (ref.read k).lastBlock = 0 ∧ (ref.read k).strVersion = "") ∧
    (∀ e, ref.cell.msg = some e → e.errLoc = "Verack timeout" →
      ref.connOpen = true ∧
      (versionsInHandshake w.schedule = [] →
        ref.cell.version = 0 ∧ ref.cell.services = 0 ∧
        ref.cell.lastBlock = 0 ∧ ref.cell.strVersion = "") ∧
      (∀ msg, (versionsInHandshake w.schedule).getLast? = some msg →
        ref.cell.version = msg.ProtocolVersion ∧ ref.cell.services = msg.Services ∧
        ref.cell.lastBlock = msg.LastBlock ∧ ref.cell.strVersion = msg.UserAgent)) ∧
    (∃ sofar, w.schedule = sofar ++ ref.later k ∧
      (versionsOf sofar = [] →
        (ref.read k).version = 0 ∧ (ref.read k).services = 0 ∧
        (ref.read k).lastBlock = 0 ∧ (ref.read k).strVersion = "") ∧
      (∀ msg, (versionsOf sofar).getLast? = some msg →
        (ref.read k).version = msg.ProtocolVersion ∧ (ref.read k).services = msg.Services ∧
        (ref.read k).lastBlock = msg.LastBlock ∧ (ref.read k).strVersion = msg.UserAgent)) ∧
    (0 < (ref.read k).nas.len →
      ∃ msg, verackBeforeTimer w.schedule = true ∧
        addrBeforeTimer w.schedule = some msg ∧ (ref.read k).nas = msg.AddrList) := by
  rw [crawlNode_unfold] at hsent
  have href := (List.cons.inj (List.append_cancel_left hsent)).1
  subst href
  obtain ⟨happened, hs, hr⟩ := crawlIP_split w s
    (result.new (JoinHostPort (w.ipString nd.na.IP) (Itoa nd.na.Port)))
  refine ⟨?_, ?_, ?_, ?_⟩
  · intro e he htag
    rcases crawlIP_paths w s (result.new (JoinHostPort (w.ipString nd.na.IP) (Itoa nd.na.Port)))
      with ⟨c, h⟩ | ⟨c, h⟩ | ⟨hc, ht⟩ | ⟨hc, ha, hf⟩ | ⟨hc, ha, hr⟩
    · rw [crawlIP_constructionFails w s _ c h]
      exact ⟨rfl, rfl, rfl, rfl⟩
    · rw [crawlIP_dialFails w s _ c h]
      exact ⟨rfl, rfl, rfl, rfl⟩
    · rw [crawlIP_verackTimeout w s _ hc ht] at he
      simp only [Option.some.injEq] at he
      subst he
      rcases htag with htag | htag
      · exact absurd htag (by decide)
      · exact absurd htag (by decide)
    · rw [crawlIP_skipped w s _ hc ha hf] at he
      simp at he
    · rw [(crawlIP_asked w s _ hc ha hr).2.1] at he
      cases he
  · intro e he htag
    rcases crawlIP_paths w s (result.new (JoinHostPort (w.ipString nd.na.IP) (Itoa nd.na.Port)))
      with ⟨c, h⟩ | ⟨c, h⟩ | ⟨hc, ht⟩ | ⟨hc, ha, hf⟩ | ⟨hc, ha, hr⟩
    · rw [crawlIP_constructionFails w s _ c h] at he
      simp only [Option.some.injEq] at he
      subst he
      exact absurd htag (show ¬ ("NewOutboundPeer: error" : String) = "Verack timeout" by decide)
    · rw [crawlIP_dialFails w s _ c h] at he
      simp only [Option.some.injEq] at he
      subst he
      exact absurd htag (show ¬ ("net.Dial: error" : String) = "Verack timeout" by decide)
    · rw [crawlIP_verackTimeout w s _ hc ht]
      refine ⟨rfl, fun hnil => ?_, fun msg hlast => ?_⟩
      · rw [hnil]
        exact ⟨rfl, rfl, rfl, rfl⟩
      · have hrem := foldl_OnVersion_remote (versionsInHandshake w.schedule)
          (result.new (JoinHostPort (w.ipString nd.na.IP) (Itoa nd.na.Port)))
        rw [hlast] at hrem
        exact remote_fields _ _ hrem
    · rw [crawlIP_skipped w s _ hc ha hf] at he
      simp at he
    · rw [(crawlIP_asked w s _ hc ha hr).2.1] at he
      cases he
  · have hcell : ({ (crawlIP w s (result.new
          (JoinHostPort (w.ipString nd.na.IP) (Itoa nd.na.Port)))).r with
        nas := (crawlIP w s (result.new
          (JoinHostPort (w.ipString nd.na.IP) (Itoa nd.na.Port)))).nas
        msg := (crawlIP w s (result.new
          (JoinHostPort (w.ipString nd.na.IP) (Itoa nd.na.Port)))).err } : result).remote
        = ((versionsOf happened).getLast?).getD ⟨0, 0, 0, ""⟩ := by
      have h1 := foldl_OnVersion_remote (versionsOf happened)
        (result.new (JoinHostPort (w.ipString nd.na.IP) (Itoa nd.na.Port)))
      rw [← hr] at h1
      exact h1
    obtain ⟨sofar, hsplit, hread⟩ := read_remote w
      ⟨_, (crawlIP w s (result.new
          (JoinHostPort (w.ipString nd.na.IP) (Itoa nd.na.Port)))).rest,
        (crawlIP w s (result.new
          (JoinHostPort (w.ipString nd.na.IP) (Itoa nd.na.Port)))).connOpen⟩
      happened ⟨0, 0, 0, ""⟩ hs hcell k
    refine ⟨sofar, hsplit, fun hnil => ?_, fun msg hlast => ?_⟩
    · rw [hnil] at hread
      exact remote_fields _ _ hread
    · rw [hlast] at hread
      exact remote_fields _ _ hread
  · intro hlen
    rw [resultRef.read, foldl_OnVersion_nas] at hlen ⊢
    rcases crawlIP_paths w s (result.new (JoinHostPort (w.ipString nd.na.IP) (Itoa nd.na.Port)))
      with ⟨c, h⟩ | ⟨c, h⟩ | ⟨hc, ht⟩ | ⟨hc, ha, hf⟩ | ⟨hc, ha, hr⟩
    · rw [crawlIP_constructionFails w s _ c h] at hlen
      simp [GoSlice.len] at hlen
    · rw [crawlIP_dialFails w s _ c h] at hlen
      simp [GoSlice.len] at hlen
    · rw [crawlIP_verackTimeout w s _ hc ht] at hlen
      simp [GoSlice.len] at hlen
    · rw [crawlIP_skipped w s _ hc ha hf] at hlen
      simp [GoSlice.len] at hlen
    · have hrun := crawlIP_asked w s _ hc ha hr
      simp only at hlen ⊢
      rw [hrun.1] at hlen ⊢
      cases hrec : addrBeforeTimer w.schedule with
      | none =>
        rw [hrec] at hlen
        simp [MsgAddr.new, GoSlice.len] at hlen
      | some msg => exact ⟨msg, ha, rfl, rfl⟩

/-- The peer sends its version one event after the timeout: read at once the
result has version 0, read after that event it has version 70015. -/
theorem crawlNode_fields_populated_witness :
    crawlNode worldLateVersion [] (seederWith 0 10) sampleNode = [] ++ [lateVersionRef] ∧
      (lateVersionRef.read 0).version = 0 ∧
      (lateVersionRef.read 1).version = 70015 ∧
      ∃ sofar, worldLateVersion.schedule = sofar ++ lateVersionRef.later 1 ∧
        (versionsOf sofar = [] →
          (lateVersionRef.read 1).version = 0 ∧ (lateVersionRef.read 1).services = 0 ∧
          (lateVersionRef.read 1).lastBlock = 0 ∧ (lateVersionRef.read 1).strVersion = "") ∧
        (∀ msg, (versionsOf sofar).getLast? = some msg →
          (lateVersionRef.read 1).version = msg.ProtocolVersion ∧
          (lateVersionRef.read 1).services = msg.Services ∧
          (lateVersionRef.read 1).lastBlock = msg.LastBlock ∧
          (lateVersionRef.read 1).strVersion = msg.UserAgent) :=
  ⟨by decide, by decide, by decide,
    (crawlNode_fields_populated worldLateVersion [] (seederWith 0 10) sampleNode
      lateVersionRef (by decide) 1).2.2.1⟩

/-! ## The capacity threshold at its boundary -/

/-- C9: the seeder knows exactly `maxSize` peers, so it is full, and the
verack arrives; `crawlIP` queues the address request all the same and returns
the addresses the peer answers with. -/
theorem crawlIP_at_maximum_sends_getaddr :
    connected worldAnswers (seederWith 1 1) (result.new "203.0.113.5:8333") ∧
      verackBeforeTimer worldAnswers.schedule = true ∧
      ((seederWith 1 1).theList.length : Int) = (seederWith 1 1).maxSize ∧
      Action.queueGetAddr ∈
        (crawlIP worldAnswers (seederWith 1 1) (result.new "203.0.113.5:8333")).trace ∧
      (crawlIP worldAnswers (seederWith 1 1) (result.new "203.0.113.5:8333")).nas
        = .ofList sampleAddrs ∧
      (crawlIP worldAnswers (seederWith 1 1) (result.new "203.0.113.5:8333")).nas
        ≠ .nil :=
  ⟨⟨⟨"203.0.113.5:8333"⟩, ⟨3⟩, rfl, rfl⟩, rfl, by decide, by decide, by decide, by decide⟩

end Dnsseeder
